import Mathlib

/-!
Verification of the prediction-and-simulation pipeline of `monte_carlo_sim.py`
(repository InsideTheO): team records, the strength model with American odds,
the score-simulation aggregation, and per-player probability projection.

The Python code is shallowly embedded: pandas rows become structures, the
`team_records` dict becomes an insertion-ordered association list, floats
become exact rationals (`ℚ`), `NaN` goal cells become `Option`'s `none`, and
Python's `int()` truncation becomes an explicit truncation on `ℚ`.
-/

namespace MonteCarloSim

abbrev Team := String

/-- A team's win/loss record, the value type of the Python `team_records`
dict built by `calculate_team_records`. -/
structure TeamRec where
  wins : ℕ
  losses : ℕ
  total_games : ℕ
deriving DecidableEq, Repr

/-- One row of the schedule DataFrame.  `HomeGoals` / `AwayGoals` are `none`
when the CSV cell is empty (pandas `NaN`, a not-yet-played game). -/
structure Game where
  home_team : Team
  away_team : Team
  home_goals : Option ℚ
  away_goals : Option ℚ
deriving DecidableEq, Repr

/-- Insertion-ordered dict, as Python's `dict` of `str` keys. -/
abbrev TeamRecords := List (Team × TeamRec)

/-- First value stored under key `t` (Python `d[t]` / `t in d`). -/
def dictFind {α : Type} (recs : List (Team × α)) (t : Team) : Option α :=
  match recs with
  | [] => none
  | (k, v) :: rest => if k = t then some v else dictFind rest t

/-- Python dict assignment `d[t] = r`: overwrite in place if the key exists,
otherwise append at the end (insertion order). -/
def dictInsert {α : Type} (recs : List (Team × α)) (t : Team) (r : α) : List (Team × α) :=
  match recs with
  | [] => [(t, r)]
  | (k, v) :: rest => if k = t then (k, r) :: rest else (k, v) :: dictInsert rest t r

/-- Pandas comparison `goals_for > goals_against` on possibly-`NaN` cells:
any comparison involving `NaN` is `False`. -/
def nanGt (x y : Option ℚ) : Bool :=
  match x, y with
  | some a, some b => a > b
  | _, _ => false

/-- The body of the inner `for team, goals_for, goals_against in ...` loop of
`calculate_team_records`: default-insert the team, bump `total_games`, then
bump `wins` on a strict-greater comparison and `losses` otherwise. -/
def updateTeam (recs : TeamRecords) (team : Team) (goals_for goals_against : Option ℚ) :
    TeamRecords :=
  let r := (dictFind recs team).getD ⟨0, 0, 0⟩
  let r := { r with total_games := r.total_games + 1 }
  let r := if nanGt goals_for goals_against
    then { r with wins := r.wins + 1 }
    else { r with losses := r.losses + 1 }
  dictInsert recs team r

/-- One iteration of the outer `for _, row in schedule_df.iterrows()` loop:
update the home team's record, then the away team's. -/
def processGame (recs : TeamRecords) (g : Game) : TeamRecords :=
  updateTeam (updateTeam recs g.home_team g.home_goals g.away_goals)
    g.away_team g.away_goals g.home_goals

/-- `calculate_team_records(schedule_df)`: fold the per-row update over the
schedule starting from the empty dict. -/
def calculate_team_records (schedule : List Game) : TeamRecords :=
  schedule.foldl processGame []

theorem dictFind_dictInsert_self {α : Type} (recs : List (Team × α)) (t : Team) (r : α) :
    dictFind (dictInsert recs t r) t = some r := by
  induction recs with
  | nil => simp [dictInsert, dictFind]
  | cons kv rest ih =>
    obtain ⟨k, v⟩ := kv
    by_cases h : k = t <;> simp [dictInsert, dictFind, h, ih]

theorem dictFind_dictInsert_ne {α : Type} (recs : List (Team × α)) (t t' : Team) (r : α)
    (h : t ≠ t') : dictFind (dictInsert recs t r) t' = dictFind recs t' := by
  induction recs with
  | nil => simp [dictInsert, dictFind, h]
  | cons kv rest ih =>
    obtain ⟨k, v⟩ := kv
    by_cases hk : k = t
    · subst hk
      simp [dictInsert, dictFind, h]
    · simp [dictInsert, dictFind, hk, ih]

theorem dictFind_updateTeam_self (recs : TeamRecords) (t : Team) (gf ga : Option ℚ) :
    dictFind (updateTeam recs t gf ga) t =
      some (let r := (dictFind recs t).getD ⟨0, 0, 0⟩
        if nanGt gf ga
        then ⟨r.wins + 1, r.losses, r.total_games + 1⟩
        else ⟨r.wins, r.losses + 1, r.total_games + 1⟩) := by
  unfold updateTeam
  by_cases h : nanGt gf ga <;> simp [h, dictFind_dictInsert_self]

theorem dictFind_updateTeam_ne (recs : TeamRecords) (t t' : Team) (gf ga : Option ℚ)
    (h : t ≠ t') : dictFind (updateTeam recs t gf ga) t' = dictFind recs t' := by
  unfold updateTeam
  exact dictFind_dictInsert_ne _ _ _ _ h

theorem dictFind_some_mem {α : Type} (recs : List (Team × α)) (t : Team) (v : α)
    (h : dictFind recs t = some v) : (t, v) ∈ recs := by
  induction recs with
  | nil => simp [dictFind] at h
  | cons kv rest ih =>
    obtain ⟨k, w⟩ := kv
    by_cases hk : k = t
    · subst hk
      simp [dictFind] at h
      simp [h]
    · simp [dictFind, hk] at h
      exact List.mem_cons_of_mem _ (ih h)

theorem mem_dictInsert {α : Type} (recs : List (Team × α)) (t : Team) (r : α) (q : Team × α)
    (h : q ∈ dictInsert recs t r) : q = (t, r) ∨ q ∈ recs := by
  induction recs with
  | nil => simpa [dictInsert] using h
  | cons kv rest ih =>
    obtain ⟨k, v⟩ := kv
    by_cases hk : k = t
    · subst hk
      simp [dictInsert] at h
      rcases h with h | h
      · exact Or.inl (by simp [h])
      · exact Or.inr (List.mem_cons_of_mem _ h)
    · simp [dictInsert, hk] at h
      rcases h with h | h
      · exact Or.inr (by simp [h])
      · rcases ih h with h' | h'
        · exact Or.inl h'
        · exact Or.inr (List.mem_cons_of_mem _ h')

/-- Every record stored by the inner-loop update keeps `wins + losses =
total_games` provided all previously stored records do. -/
theorem updateTeam_preserves_invariant (recs : TeamRecords) (t : Team) (gf ga : Option ℚ)
    (hinv : ∀ p ∈ recs, (p.2).wins + (p.2).losses = (p.2).total_games) :
    ∀ p ∈ updateTeam recs t gf ga, (p.2).wins + (p.2).losses = (p.2).total_games := by
  intro p hp
  have hr : ((dictFind recs t).getD ⟨0, 0, 0⟩).wins + ((dictFind recs t).getD ⟨0, 0, 0⟩).losses
      = ((dictFind recs t).getD ⟨0, 0, 0⟩).total_games := by
    cases hfind : dictFind recs t with
    | none => simp
    | some v => simpa using hinv (t, v) (dictFind_some_mem recs t v hfind)
  unfold updateTeam at hp
  rcases mem_dictInsert _ _ _ _ hp with h | h
  · subst h
    by_cases hgt : nanGt gf ga <;> simp [hgt] <;> omega
  · exact hinv p h

theorem processGame_preserves_invariant (recs : TeamRecords) (g : Game)
    (hinv : ∀ p ∈ recs, (p.2).wins + (p.2).losses = (p.2).total_games) :
    ∀ p ∈ processGame recs g, (p.2).wins + (p.2).losses = (p.2).total_games :=
  updateTeam_preserves_invariant _ _ _ _ (updateTeam_preserves_invariant _ _ _ _ hinv)

theorem foldl_processGame_invariant (games : List Game) (recs : TeamRecords)
    (hinv : ∀ p ∈ recs, (p.2).wins + (p.2).losses = (p.2).total_games) :
    ∀ p ∈ games.foldl processGame recs, (p.2).wins + (p.2).losses = (p.2).total_games := by
  induction games generalizing recs with
  | nil => exact hinv
  | cons g rest ih => exact ih _ (processGame_preserves_invariant recs g hinv)

/-- C3: processing a completed game (both goal cells present) from any
intermediate record state credits the strictly-higher scorer a win and the
other team a loss, credits both teams a loss on a tie, and always increments
both teams' `total_games` by one. -/
theorem processGame_completed_game (recs : TeamRecords) (g : Game) (hg ag : ℚ)
    (hhg : g.home_goals = some hg) (hag : g.away_goals = some ag)
    (hne : g.home_team ≠ g.away_team) :
    ((dictFind (processGame recs g) g.home_team).getD ⟨0, 0, 0⟩).total_games
        = ((dictFind recs g.home_team).getD ⟨0, 0, 0⟩).total_games + 1 ∧
    ((dictFind (processGame recs g) g.away_team).getD ⟨0, 0, 0⟩).total_games
        = ((dictFind recs g.away_team).getD ⟨0, 0, 0⟩).total_games + 1 ∧
    (hg > ag →
      ((dictFind (processGame recs g) g.home_team).getD ⟨0, 0, 0⟩).wins
          = ((dictFind recs g.home_team).getD ⟨0, 0, 0⟩).wins + 1 ∧
      ((dictFind (processGame recs g) g.home_team).getD ⟨0, 0, 0⟩).losses
          = ((dictFind recs g.home_team).getD ⟨0, 0, 0⟩).losses ∧
      ((dictFind (processGame recs g) g.away_team).getD ⟨0, 0, 0⟩).wins
          = ((dictFind recs g.away_team).getD ⟨0, 0, 0⟩).wins ∧
      ((dictFind (processGame recs g) g.away_team).getD ⟨0, 0, 0⟩).losses
          = ((dictFind recs g.away_team).getD ⟨0, 0, 0⟩).losses + 1) ∧
    (ag > hg →
      ((dictFind (processGame recs g) g.home_team).getD ⟨0, 0, 0⟩).wins
          = ((dictFind recs g.home_team).getD ⟨0, 0, 0⟩).wins ∧
      ((dictFind (processGame recs g) g.home_team).getD ⟨0, 0, 0⟩).losses
          = ((dictFind recs g.home_team).getD ⟨0, 0, 0⟩).losses + 1 ∧
      ((dictFind (processGame recs g) g.away_team).getD ⟨0, 0, 0⟩).wins
          = ((dictFind recs g.away_team).getD ⟨0, 0, 0⟩).wins + 1 ∧
      ((dictFind (processGame recs g) g.away_team).getD ⟨0, 0, 0⟩).losses
          = ((dictFind recs g.away_team).getD ⟨0, 0, 0⟩).losses) ∧
    (hg = ag →
      ((dictFind (processGame recs g) g.home_team).getD ⟨0, 0, 0⟩).wins
          = ((dictFind recs g.home_team).getD ⟨0, 0, 0⟩).wins ∧
      ((dictFind (processGame recs g) g.home_team).getD ⟨0, 0, 0⟩).losses
          = ((dictFind recs g.home_team).getD ⟨0, 0, 0⟩).losses + 1 ∧
      ((dictFind (processGame recs g) g.away_team).getD ⟨0, 0, 0⟩).wins
          = ((dictFind recs g.away_team).getD ⟨0, 0, 0⟩).wins ∧
      ((dictFind (processGame recs g) g.away_team).getD ⟨0, 0, 0⟩).losses
          = ((dictFind recs g.away_team).getD ⟨0, 0, 0⟩).losses + 1) := by
  have hfh : dictFind (processGame recs g) g.home_team =
      some (let r := (dictFind recs g.home_team).getD ⟨0, 0, 0⟩
        if nanGt g.home_goals g.away_goals
        then ⟨r.wins + 1, r.losses, r.total_games + 1⟩
        else ⟨r.wins, r.losses + 1, r.total_games + 1⟩) := by
    unfold processGame
    rw [dictFind_updateTeam_ne _ _ _ _ _ (Ne.symm hne)]
    exact dictFind_updateTeam_self _ _ _ _
  have hfa : dictFind (processGame recs g) g.away_team =
      some (let r := (dictFind recs g.away_team).getD ⟨0, 0, 0⟩
        if nanGt g.away_goals g.home_goals
        then ⟨r.wins + 1, r.losses, r.total_games + 1⟩
        else ⟨r.wins, r.losses + 1, r.total_games + 1⟩) := by
    unfold processGame
    rw [dictFind_updateTeam_self]
    rw [dictFind_updateTeam_ne _ _ _ _ _ hne]
  rw [hfh, hfa]
  simp only [hhg, hag, nanGt]
  rcases lt_trichotomy hg ag with hlt | heq | hgt
  · have h1 : ¬(hg > ag) := not_lt.mpr (le_of_lt hlt)
    simp [h1, hlt, ne_of_lt hlt]
  · simp [heq, lt_irrefl]
  · have h1 : ¬(ag > hg) := not_lt.mpr (le_of_lt hgt)
    simp [hgt, h1, (ne_of_lt hgt).symm]

/-- Witness for C3 at a concrete tied game. -/
theorem processGame_completed_game_witness :
    ((dictFind (processGame [] ⟨"A", "B", some 2, some 2⟩) "A").getD ⟨0, 0, 0⟩).losses = 0 + 1 :=
  ((processGame_completed_game [] ⟨"A", "B", some 2, some 2⟩ 2 2 rfl rfl
    (by decide)).2.2.2.2 rfl).2.1

/-- C4: the code does not skip a schedule row with null goal cells.  A single
not-yet-played game (both goals `NaN`) nevertheless credits each team one loss
and one game played. -/
theorem calculate_team_records_null_row_not_skipped :
    calculate_team_records [⟨"A", "B", none, none⟩] =
      [("A", ⟨0, 1, 1⟩), ("B", ⟨0, 1, 1⟩)] := by
  rfl

/-- C9: every record produced by `calculate_team_records` satisfies
`wins + losses = total_games`. -/
theorem calculate_team_records_invariant (games : List Game) (t : Team) (r : TeamRec)
    (h : dictFind (calculate_team_records games) t = some r) :
    r.wins + r.losses = r.total_games := by
  have := foldl_processGame_invariant games [] (by intro p hp; simp at hp)
  exact this (t, r) (dictFind_some_mem _ _ _ h)

/-- Witness for C9 on a concrete two-game schedule. -/
theorem calculate_team_records_invariant_witness :
    ∃ r : TeamRec, dictFind (calculate_team_records
        [⟨"A", "B", some 3, some 1⟩, ⟨"B", "A", some 2, some 2⟩]) "B" = some r ∧
      r.wins + r.losses = r.total_games := by
  refine ⟨⟨0, 2, 2⟩, by rfl, ?_⟩
  exact calculate_team_records_invariant
    [⟨"A", "B", some 3, some 1⟩, ⟨"B", "A", some 2, some 2⟩] "B" ⟨0, 2, 2⟩ (by rfl)

/-- The two columns of the aggregated `team_stats` DataFrame that
`predict_game_winner` reads (`total_points` and `avg_rank`); the remaining
aggregate columns are never consulted by the prediction code. -/
structure TeamStats where
  total_points : ℚ
  avg_rank : ℚ
deriving DecidableEq, Repr

/-- The aggregated stats table, indexed by team name (`team_stats.loc[t]`). -/
abbrev TeamStatsTable := List (Team × TeamStats)

/-- Python `int()` applied to a (here: exact rational) float: truncation
toward zero. -/
def int_trunc (q : ℚ) : ℤ := if 0 ≤ q then ⌊q⌋ else -⌊-q⌋

/-- The odds formatting of lines 92-93: positive odds get a leading `+`,
otherwise the plain decimal rendering. -/
def fmtOdds (n : ℤ) : String := if n > 0 then "+" ++ toString n else toString n

/-- The strength expression of lines 72-79, written once; the Python source
repeats it verbatim for the home and the away team. -/
def team_strength (stats : TeamStats) (rec : TeamRec) : ℚ :=
  stats.total_points + stats.avg_rank * 10 +
    ((rec.wins : ℚ) / (rec.total_games : ℚ)) * 100

/-- The tuple returned by `predict_game_winner`, with the intermediate
integer odds (the values of `home_odds` / `away_odds` before the string
formatting of lines 92-93) kept alongside the formatted strings. -/
structure Prediction where
  winner : Team
  home_odds_int : ℤ
  away_odds_int : ℤ
  home_odds : String
  away_odds : String
  home_prob : ℚ
  away_prob : ℚ
deriving DecidableEq, Repr

/-- `predict_game_winner(home_team, away_team, team_stats, team_records)`:
`none` models the `KeyError` raised by `team_stats.loc` on an unknown team;
missing records fall back to `{'wins': 0, 'losses': 0, 'total_games': 1}`. -/
def predict_game_winner (home_team away_team : Team) (team_stats : TeamStatsTable)
    (team_records : TeamRecords) : Option Prediction :=
  match dictFind team_stats home_team, dictFind team_stats away_team with
  | some home_stats, some away_stats =>
    let home_record := (dictFind team_records home_team).getD ⟨0, 0, 1⟩
    let away_record := (dictFind team_records away_team).getD ⟨0, 0, 1⟩
    let home_strength := home_stats.total_points + home_stats.avg_rank * 10 +
      ((home_record.wins : ℚ) / (home_record.total_games : ℚ)) * 100
    let away_strength := away_stats.total_points + away_stats.avg_rank * 10 +
      ((away_record.wins : ℚ) / (away_record.total_games : ℚ)) * 100
    let total_strength := home_strength + away_strength
    let home_prob := home_strength / total_strength
    let away_prob := away_strength / total_strength
    let odds : ℤ × ℤ :=
      if home_prob > away_prob then
        (-int_trunc (100 / home_prob), int_trunc (100 * ((1 - away_prob) / away_prob)))
      else
        (int_trunc (100 * ((1 - home_prob) / home_prob)), -int_trunc (100 / away_prob))
    let winner := if home_prob > away_prob then home_team else away_team
    some ⟨winner, odds.1, odds.2, fmtOdds odds.1, fmtOdds odds.2, home_prob, away_prob⟩
  | _, _ => none

theorem int_trunc_of_nonneg (q : ℚ) (h : 0 ≤ q) : int_trunc q = ⌊q⌋ := if_pos h

/-- The home/away strengths used inside `predict_game_winner` are the
`team_strength` expression at the looked-up stats and the found-or-default
record. -/
theorem predict_game_winner_eq (h a : Team) (stats : TeamStatsTable) (recs : TeamRecords)
    (sh sa : TeamStats) (hh : dictFind stats h = some sh) (ha : dictFind stats a = some sa) :
    predict_game_winner h a stats recs =
      (let hs := team_strength sh ((dictFind recs h).getD ⟨0, 0, 1⟩)
      let as' := team_strength sa ((dictFind recs a).getD ⟨0, 0, 1⟩)
      let hp := hs / (hs + as')
      let ap := as' / (hs + as')
      let odds : ℤ × ℤ :=
        if hp > ap then
          (-int_trunc (100 / hp), int_trunc (100 * ((1 - ap) / ap)))
        else
          (int_trunc (100 * ((1 - hp) / hp)), -int_trunc (100 / ap))
      some ⟨if hp > ap then h else a, odds.1, odds.2, fmtOdds odds.1, fmtOdds odds.2,
        hp, ap⟩) := by
  unfold predict_game_winner
  rw [hh, ha]
  rfl

/-- C1: for any pair of teams present in the stats table (and any records),
`predict_game_winner` computes each side's strength as
`total_points + avg_rank*10 + (wins/total_games)*100`, sets
`home_prob = home_strength / (home_strength + away_strength)` (symmetrically
for away), and the two probabilities sum exactly to 1 in rational
arithmetic, provided the strength total (the denominator) is nonzero. -/
theorem predict_game_winner_prob_sum (h a : Team) (stats : TeamStatsTable)
    (recs : TeamRecords) (sh sa : TeamStats)
    (hh : dictFind stats h = some sh) (ha : dictFind stats a = some sa)
    (hts : team_strength sh ((dictFind recs h).getD ⟨0, 0, 1⟩)
        + team_strength sa ((dictFind recs a).getD ⟨0, 0, 1⟩) ≠ 0) :
    ∃ p : Prediction, predict_game_winner h a stats recs = some p ∧
      p.home_prob = team_strength sh ((dictFind recs h).getD ⟨0, 0, 1⟩) /
        (team_strength sh ((dictFind recs h).getD ⟨0, 0, 1⟩) +
          team_strength sa ((dictFind recs a).getD ⟨0, 0, 1⟩)) ∧
      p.away_prob = team_strength sa ((dictFind recs a).getD ⟨0, 0, 1⟩) /
        (team_strength sh ((dictFind recs h).getD ⟨0, 0, 1⟩) +
          team_strength sa ((dictFind recs a).getD ⟨0, 0, 1⟩)) ∧
      p.home_prob + p.away_prob = 1 := by
  rw [predict_game_winner_eq h a stats recs sh sa hh ha]
  refine ⟨_, rfl, rfl, rfl, ?_⟩
  simp only
  rw [div_add_div_same, div_self hts]

/-- Witness for C1 at a concrete stats table (strengths 150 and 100). -/
theorem predict_game_winner_prob_sum_witness :
    ∃ p : Prediction,
      predict_game_winner "H" "A" [("H", ⟨150, 0⟩), ("A", ⟨100, 0⟩)] [] = some p ∧
      p.home_prob + p.away_prob = 1 := by
  obtain ⟨p, hp, _, _, hsum⟩ := predict_game_winner_prob_sum "H" "A"
    [("H", ⟨150, 0⟩), ("A", ⟨100, 0⟩)] [] ⟨150, 0⟩ ⟨100, 0⟩ rfl rfl
    (by norm_num [team_strength, dictFind])
  exact ⟨p, hp, hsum⟩

/-- C5: `predict_game_winner` fails exactly when the home or the away team is
missing from the stats table; a team missing only from the records is instead
given the default record `{wins 0, losses 0, total_games 1}` (so the
prediction is unchanged by inserting that default explicitly), and with the
default record the win-rate term contributes 0 to the strength. -/
theorem predict_game_winner_lookup (h a : Team) (stats : TeamStatsTable)
    (recs : TeamRecords) :
    ((predict_game_winner h a stats recs).isSome ↔
      (dictFind stats h).isSome ∧ (dictFind stats a).isSome) ∧
    (dictFind recs h = none → h ≠ a →
      predict_game_winner h a stats recs =
        predict_game_winner h a stats (dictInsert recs h ⟨0, 0, 1⟩)) ∧
    (∀ s : TeamStats, team_strength s ⟨0, 0, 1⟩ = s.total_points + s.avg_rank * 10) := by
  refine ⟨?_, ?_, ?_⟩
  · cases hh : dictFind stats h <;> cases ha : dictFind stats a <;>
      simp [predict_game_winner, hh, ha]
  · intro hnone hne
    have h1 : dictFind (dictInsert recs h (⟨0, 0, 1⟩ : TeamRec)) h = some ⟨0, 0, 1⟩ :=
      dictFind_dictInsert_self _ _ _
    have h2 : dictFind (dictInsert recs h (⟨0, 0, 1⟩ : TeamRec)) a = dictFind recs a :=
      dictFind_dictInsert_ne _ _ _ _ hne
    unfold predict_game_winner
    rw [hnone, h1, h2]
    simp only [Option.getD_none, Option.getD_some]
  · intro s
    simp [team_strength]

/-- Witness for C5: a team absent from the records is treated as having the
default record. -/
theorem predict_game_winner_lookup_witness :
    predict_game_winner "H" "A" [("H", ⟨150, 0⟩), ("A", ⟨100, 0⟩)] [] =
      predict_game_winner "H" "A" [("H", ⟨150, 0⟩), ("A", ⟨100, 0⟩)]
        (dictInsert [] "H" ⟨0, 0, 1⟩) :=
  (predict_game_winner_lookup "H" "A" [("H", ⟨150, 0⟩), ("A", ⟨100, 0⟩)] []).2.1
    rfl (by decide)

/-- Full description of the prediction when both looked-up strengths are
positive: exact probabilities, the branch taken, the odds formulas (with
Python `int()` truncation rewritten as a floor, both arguments being
nonnegative), and the signs of the two odds. -/
theorem predict_game_winner_pos_spec (h a : Team) (stats : TeamStatsTable)
    (recs : TeamRecords) (sh sa : TeamStats)
    (hh : dictFind stats h = some sh) (ha : dictFind stats a = some sa)
    (hsh : 0 < team_strength sh ((dictFind recs h).getD ⟨0, 0, 1⟩))
    (hsa : 0 < team_strength sa ((dictFind recs a).getD ⟨0, 0, 1⟩)) :
    ∃ p : Prediction, predict_game_winner h a stats recs = some p ∧
      p.home_prob = team_strength sh ((dictFind recs h).getD ⟨0, 0, 1⟩) /
        (team_strength sh ((dictFind recs h).getD ⟨0, 0, 1⟩) +
          team_strength sa ((dictFind recs a).getD ⟨0, 0, 1⟩)) ∧
      p.away_prob = team_strength sa ((dictFind recs a).getD ⟨0, 0, 1⟩) /
        (team_strength sh ((dictFind recs h).getD ⟨0, 0, 1⟩) +
          team_strength sa ((dictFind recs a).getD ⟨0, 0, 1⟩)) ∧
      0 < p.home_prob ∧ p.home_prob < 1 ∧ 0 < p.away_prob ∧ p.away_prob < 1 ∧
      p.home_prob + p.away_prob = 1 ∧
      (p.home_prob > p.away_prob →
        p.winner = h ∧
        p.home_odds_int = -⌊100 / p.home_prob⌋ ∧
        p.away_odds_int = ⌊100 * ((1 - p.away_prob) / p.away_prob)⌋ ∧
        p.home_odds_int < 0 ∧ 0 < p.away_odds_int ∧
        p.home_odds = fmtOdds p.home_odds_int ∧ p.away_odds = fmtOdds p.away_odds_int) ∧
      (¬p.home_prob > p.away_prob →
        p.winner = a ∧
        p.away_odds_int = -⌊100 / p.away_prob⌋ ∧
        p.home_odds_int = ⌊100 * ((1 - p.home_prob) / p.home_prob)⌋ ∧
        p.away_odds_int < 0 ∧ 0 < p.home_odds_int ∧
        p.home_odds = fmtOdds p.home_odds_int ∧ p.away_odds = fmtOdds p.away_odds_int) := by
  rw [predict_game_winner_eq h a stats recs sh sa hh ha]
  set S := team_strength sh ((dictFind recs h).getD ⟨0, 0, 1⟩) with hS
  set R := team_strength sa ((dictFind recs a).getD ⟨0, 0, 1⟩) with hR
  have hT : 0 < S + R := add_pos hsh hsa
  have hp_pos : 0 < S / (S + R) := div_pos hsh hT
  have hp_lt : S / (S + R) < 1 := (div_lt_one hT).mpr (lt_add_of_pos_right _ hsa)
  have ap_pos : 0 < R / (S + R) := div_pos hsa hT
  have ap_lt : R / (S + R) < 1 := (div_lt_one hT).mpr (lt_add_of_pos_left _ hsh)
  have hsum : S / (S + R) + R / (S + R) = 1 := by
    rw [div_add_div_same, div_self (ne_of_gt hT)]
  by_cases hgt : S / (S + R) < R / (S + R)
  · -- away strictly stronger: the `else` branch
    have hnot : ¬(R / (S + R) < S / (S + R)) := not_lt.mpr (le_of_lt hgt)
    have hphalf : S / (S + R) ≤ 1 / 2 := by
      have := hgt
      nlinarith [hsum]
    have harg : (100 : ℚ) ≤ 100 * ((1 - S / (S + R)) / (S / (S + R))) := by
      have h1 : (1 : ℚ) ≤ (1 - S / (S + R)) / (S / (S + R)) := by
        rw [le_div_iff₀ hp_pos]
        nlinarith
      nlinarith
    have hfav : (100 : ℚ) ≤ 100 / (R / (S + R)) := by
      rw [le_div_iff₀ ap_pos]
      nlinarith [ap_lt]
    have hfl_arg : (100 : ℤ) ≤ ⌊100 * ((1 - S / (S + R)) / (S / (S + R)))⌋ := by
      rw [Int.le_floor]
      exact_mod_cast harg
    have hfl_fav : (100 : ℤ) ≤ ⌊100 / (R / (S + R))⌋ := by
      rw [Int.le_floor]
      exact_mod_cast hfav
    refine ⟨_, rfl, ?_⟩
    simp only [gt_iff_lt, if_neg hnot]
    refine ⟨by trivial, by trivial, hp_pos, hp_lt, ap_pos, ap_lt, hsum, ?_, ?_⟩
    · intro hcon
      exact absurd hcon hnot
    · intro _
      refine ⟨by trivial, ?_, ?_, ?_, ?_, by trivial, by trivial⟩
      · rw [int_trunc_of_nonneg _ (by positivity)]
      · rw [int_trunc_of_nonneg _ (le_trans (by norm_num) harg)]
      · rw [int_trunc_of_nonneg _ (by positivity)]
        omega
      · rw [int_trunc_of_nonneg _ (le_trans (by norm_num) harg)]
        omega
  · -- home at least as strong: note the strict test `home_prob > away_prob`
    rcases eq_or_lt_of_le (not_lt.mp hgt) with heq | hlt
    · -- exact tie: the `else` branch again, away team is selected
      have hnot : ¬(R / (S + R) < S / (S + R)) := by rw [heq]; exact lt_irrefl _
      have hphalf : S / (S + R) ≤ 1 / 2 := by nlinarith [hsum, heq]
      have harg : (100 : ℚ) ≤ 100 * ((1 - S / (S + R)) / (S / (S + R))) := by
        have h1 : (1 : ℚ) ≤ (1 - S / (S + R)) / (S / (S + R)) := by
          rw [le_div_iff₀ hp_pos]
          nlinarith
        nlinarith
      have hfav : (100 : ℚ) ≤ 100 / (R / (S + R)) := by
        rw [le_div_iff₀ ap_pos]
        nlinarith [ap_lt]
      have hfl_arg : (100 : ℤ) ≤ ⌊100 * ((1 - S / (S + R)) / (S / (S + R)))⌋ := by
        rw [Int.le_floor]
        exact_mod_cast harg
      have hfl_fav : (100 : ℤ) ≤ ⌊100 / (R / (S + R))⌋ := by
        rw [Int.le_floor]
        exact_mod_cast hfav
      refine ⟨_, rfl, ?_⟩
      simp only [gt_iff_lt, if_neg hnot]
      refine ⟨by trivial, by trivial, hp_pos, hp_lt, ap_pos, ap_lt, hsum, ?_, ?_⟩
      · intro hcon
        exact absurd hcon hnot
      · intro _
        refine ⟨by trivial, ?_, ?_, ?_, ?_, by trivial, by trivial⟩
        · rw [int_trunc_of_nonneg _ (by positivity)]
        · rw [int_trunc_of_nonneg _ (le_trans (by norm_num) harg)]
        · rw [int_trunc_of_nonneg _ (by positivity)]
          omega
        · rw [int_trunc_of_nonneg _ (le_trans (by norm_num) harg)]
          omega
    · -- home strictly stronger: the `then` branch
      have hyes : R / (S + R) < S / (S + R) := hlt
      have hahalf : R / (S + R) ≤ 1 / 2 := by nlinarith [hsum]
      have harg : (100 : ℚ) ≤ 100 * ((1 - R / (S + R)) / (R / (S + R))) := by
        have h1 : (1 : ℚ) ≤ (1 - R / (S + R)) / (R / (S + R)) := by
          rw [le_div_iff₀ ap_pos]
          nlinarith
        nlinarith
      have hfav : (100 : ℚ) ≤ 100 / (S / (S + R)) := by
        rw [le_div_iff₀ hp_pos]
        nlinarith [hp_lt]
      have hfl_arg : (100 : ℤ) ≤ ⌊100 * ((1 - R / (S + R)) / (R / (S + R)))⌋ := by
        rw [Int.le_floor]
        exact_mod_cast harg
      have hfl_fav : (100 : ℤ) ≤ ⌊100 / (S / (S + R))⌋ := by
        rw [Int.le_floor]
        exact_mod_cast hfav
      refine ⟨_, rfl, ?_⟩
      simp only [gt_iff_lt, if_pos hyes]
      refine ⟨by trivial, by trivial, hp_pos, hp_lt, ap_pos, ap_lt, hsum, ?_, ?_⟩
      · intro _
        refine ⟨by trivial, ?_, ?_, ?_, ?_, by trivial, by trivial⟩
        · rw [int_trunc_of_nonneg _ (by positivity)]
        · rw [int_trunc_of_nonneg _ (le_trans (by norm_num) harg)]
        · rw [int_trunc_of_nonneg _ (by positivity)]
          omega
        · rw [int_trunc_of_nonneg _ (le_trans (by norm_num) harg)]
          omega
      · intro hcon
        exact absurd hyes hcon

/-- C2: when the two win probabilities are unequal (both strengths positive),
the favorite's integer odds are `-⌊100 / p⌋` and the underdog's are
`⌊100 * (1-q)/q⌋` (the formatted strings carry the sign / the leading `+`);
concretely, strengths 150 and 100 give `home_prob = 3/5`, `away_prob = 2/5`,
`home_odds = -166` and `away_odds = +150`. -/
theorem predict_game_winner_odds_formulas (h a : Team) (stats : TeamStatsTable)
    (recs : TeamRecords) (sh sa : TeamStats)
    (hh : dictFind stats h = some sh) (ha : dictFind stats a = some sa)
    (hsh : 0 < team_strength sh ((dictFind recs h).getD ⟨0, 0, 1⟩))
    (hsa : 0 < team_strength sa ((dictFind recs a).getD ⟨0, 0, 1⟩)) :
    (∃ p : Prediction, predict_game_winner h a stats recs = some p ∧
      (p.home_prob > p.away_prob →
        p.home_odds_int = -⌊100 / p.home_prob⌋ ∧
        p.away_odds_int = ⌊100 * ((1 - p.away_prob) / p.away_prob)⌋ ∧
        p.home_odds = fmtOdds p.home_odds_int ∧ p.away_odds = fmtOdds p.away_odds_int) ∧
      (p.away_prob > p.home_prob →
        p.away_odds_int = -⌊100 / p.away_prob⌋ ∧
        p.home_odds_int = ⌊100 * ((1 - p.home_prob) / p.home_prob)⌋ ∧
        p.home_odds = fmtOdds p.home_odds_int ∧ p.away_odds = fmtOdds p.away_odds_int)) ∧
    predict_game_winner "H" "A" [("H", ⟨150, 0⟩), ("A", ⟨100, 0⟩)] [] =
      some ⟨"H", -166, 150, "-166", "+150", 3/5, 2/5⟩ := by
  constructor
  · obtain ⟨p, hp, _, _, _, _, _, _, _, hfav, hund⟩ :=
      predict_game_winner_pos_spec h a stats recs sh sa hh ha hsh hsa
    refine ⟨p, hp, ?_, ?_⟩
    · intro hgt
      obtain ⟨_, h1, h2, _, _, h3, h4⟩ := hfav hgt
      exact ⟨h1, h2, h3, h4⟩
    · intro hlt
      obtain ⟨_, h1, h2, _, _, h3, h4⟩ := hund (lt_asymm hlt)
      exact ⟨h1, h2, h3, h4⟩
  · rw [predict_game_winner_eq "H" "A" [("H", ⟨150, 0⟩), ("A", ⟨100, 0⟩)] []
      ⟨150, 0⟩ ⟨100, 0⟩ rfl rfl]
    have e1 : team_strength ⟨150, 0⟩ ((dictFind ([] : TeamRecords) "H").getD ⟨0, 0, 1⟩)
        = 150 := by norm_num [team_strength, dictFind]
    have e2 : team_strength ⟨100, 0⟩ ((dictFind ([] : TeamRecords) "A").getD ⟨0, 0, 1⟩)
        = 100 := by norm_num [team_strength, dictFind]
    simp only [e1, e2]
    have hp : (150 : ℚ) / (150 + 100) = 3/5 := by norm_num
    have ha' : (100 : ℚ) / (150 + 100) = 2/5 := by norm_num
    simp only [hp, ha']
    have hcond : ((3 : ℚ)/5 > 2/5) := by norm_num
    simp only [gt_iff_lt, if_pos hcond]
    have ho : int_trunc (100 / ((3 : ℚ)/5)) = 166 := by
      rw [int_trunc_of_nonneg _ (by norm_num)]
      norm_num
    have hu : int_trunc (100 * ((1 - (2 : ℚ)/5) / ((2 : ℚ)/5))) = 150 := by
      rw [int_trunc_of_nonneg _ (by norm_num)]
      norm_num
    simp only [ho, hu]
    rfl

/-- Witness for C2: the concrete strengths-150-vs-100 prediction. -/
theorem predict_game_winner_odds_formulas_witness :
    predict_game_winner "H" "A" [("H", ⟨150, 0⟩), ("A", ⟨100, 0⟩)] [] =
      some ⟨"H", -166, 150, "-166", "+150", 3/5, 2/5⟩ :=
  (predict_game_winner_odds_formulas "H" "A" [("H", ⟨150, 0⟩), ("A", ⟨100, 0⟩)] []
    ⟨150, 0⟩ ⟨100, 0⟩ rfl rfl (by norm_num [team_strength, dictFind])
    (by norm_num [team_strength, dictFind])).2

/-- C8: with both strengths positive and unequal, the two probabilities are
unequal and exactly one of the two integer odds is negative (the favorite's),
the other being nonnegative. -/
theorem predict_game_winner_one_negative (h a : Team) (stats : TeamStatsTable)
    (recs : TeamRecords) (sh sa : TeamStats)
    (hh : dictFind stats h = some sh) (ha : dictFind stats a = some sa)
    (hsh : 0 < team_strength sh ((dictFind recs h).getD ⟨0, 0, 1⟩))
    (hsa : 0 < team_strength sa ((dictFind recs a).getD ⟨0, 0, 1⟩))
    (hne : team_strength sh ((dictFind recs h).getD ⟨0, 0, 1⟩)
        ≠ team_strength sa ((dictFind recs a).getD ⟨0, 0, 1⟩)) :
    ∃ p : Prediction, predict_game_winner h a stats recs = some p ∧
      p.home_prob ≠ p.away_prob ∧
      ((p.home_odds_int < 0 ∧ 0 ≤ p.away_odds_int) ∨
        (0 ≤ p.home_odds_int ∧ p.away_odds_int < 0)) := by
  obtain ⟨p, hp, hhp, hap, _, _, _, _, _, hfav, hund⟩ :=
    predict_game_winner_pos_spec h a stats recs sh sa hh ha hsh hsa
  have hT : (0 : ℚ) < team_strength sh ((dictFind recs h).getD ⟨0, 0, 1⟩)
      + team_strength sa ((dictFind recs a).getD ⟨0, 0, 1⟩) := add_pos hsh hsa
  have hprobne : p.home_prob ≠ p.away_prob := by
    rw [hhp, hap]
    intro hcon
    rw [div_eq_mul_inv, div_eq_mul_inv] at hcon
    exact hne (mul_right_cancel₀ (inv_ne_zero (ne_of_gt hT)) hcon)
  refine ⟨p, hp, hprobne, ?_⟩
  rcases lt_or_gt_of_ne hprobne with hlt | hgt
  · obtain ⟨_, _, _, hneg, hpos, _, _⟩ := hund (not_lt.mpr (le_of_lt hlt))
    exact Or.inr ⟨le_of_lt hpos, hneg⟩
  · obtain ⟨_, _, _, hneg, hpos, _, _⟩ := hfav hgt
    exact Or.inl ⟨hneg, le_of_lt hpos⟩

/-- Witness for C8 at concrete strengths 150 vs 100. -/
theorem predict_game_winner_one_negative_witness :
    ∃ p : Prediction,
      predict_game_winner "H" "A" [("H", ⟨150, 0⟩), ("A", ⟨100, 0⟩)] [] = some p ∧
      p.home_prob ≠ p.away_prob ∧
      ((p.home_odds_int < 0 ∧ 0 ≤ p.away_odds_int) ∨
        (0 ≤ p.home_odds_int ∧ p.away_odds_int < 0)) :=
  predict_game_winner_one_negative "H" "A" [("H", ⟨150, 0⟩), ("A", ⟨100, 0⟩)] []
    ⟨150, 0⟩ ⟨100, 0⟩ rfl rfl (by norm_num [team_strength, dictFind])
    (by norm_num [team_strength, dictFind]) (by norm_num [team_strength, dictFind])

/-- C10: on an exact tie of the two (positive) strengths — hence of the two
win probabilities — the `else` branch runs: the away team is declared winner
and receives the negative favorite odds, while the home team receives the
positive underdog odds. -/
theorem predict_game_winner_tie_away (h a : Team) (stats : TeamStatsTable)
    (recs : TeamRecords) (sh sa : TeamStats)
    (hh : dictFind stats h = some sh) (ha : dictFind stats a = some sa)
    (hsh : 0 < team_strength sh ((dictFind recs h).getD ⟨0, 0, 1⟩))
    (heq : team_strength sh ((dictFind recs h).getD ⟨0, 0, 1⟩)
        = team_strength sa ((dictFind recs a).getD ⟨0, 0, 1⟩)) :
    ∃ p : Prediction, predict_game_winner h a stats recs = some p ∧
      p.home_prob = p.away_prob ∧
      p.winner = a ∧
      p.away_odds_int = -⌊100 / p.away_prob⌋ ∧ p.away_odds_int < 0 ∧
      p.home_odds_int = ⌊100 * ((1 - p.home_prob) / p.home_prob)⌋ ∧
      0 < p.home_odds_int := by
  obtain ⟨p, hp, hhp, hap, _, _, _, _, _, _, hund⟩ :=
    predict_game_winner_pos_spec h a stats recs sh sa hh ha hsh (heq ▸ hsh)
  have hprobeq : p.home_prob = p.away_prob := by
    rw [hhp, hap, heq]
  obtain ⟨hw, h1, h2, h3, h4, _, _⟩ := hund (by rw [hprobeq]; exact lt_irrefl _)
  exact ⟨p, hp, hprobeq, hw, h1, h3, h2, h4⟩

/-- Witness for C10 at two teams of equal strength 100. -/
theorem predict_game_winner_tie_away_witness :
    ∃ p : Prediction,
      predict_game_winner "H" "A" [("H", ⟨100, 0⟩), ("A", ⟨100, 0⟩)] [] = some p ∧
      p.home_prob = p.away_prob ∧
      p.winner = "A" ∧
      p.away_odds_int = -⌊100 / p.away_prob⌋ ∧ p.away_odds_int < 0 ∧
      p.home_odds_int = ⌊100 * ((1 - p.home_prob) / p.home_prob)⌋ ∧
      0 < p.home_odds_int :=
  predict_game_winner_tie_away "H" "A" [("H", ⟨100, 0⟩), ("A", ⟨100, 0⟩)] []
    ⟨100, 0⟩ ⟨100, 0⟩ rfl rfl (by norm_num [team_strength, dictFind]) rfl

/-- Stable insertion: `x` is placed before the first element it strictly
precedes, and after any element it ties with (pandas sorts with
`keep='first'`, so earlier rows stay first among ties). -/
def insertBy {α : Type} (before : α → α → Bool) (x : α) : List α → List α
  | [] => [x]
  | y :: ys => if before x y then x :: y :: ys else y :: insertBy before x ys

/-- Stable insertion sort with respect to a strict precedence test. -/
def sortBy {α : Type} (before : α → α → Bool) (l : List α) : List α :=
  l.foldr (insertBy before) []

theorem mem_insertBy {α : Type} (before : α → α → Bool) (x : α) (l : List α) (a : α) :
    a ∈ insertBy before x l ↔ a = x ∨ a ∈ l := by
  induction l with
  | nil => simp [insertBy]
  | cons y ys ih =>
    by_cases h : before x y
    · simp [insertBy, h]
    · simp [insertBy, h, ih]
      tauto

theorem mem_sortBy {α : Type} (before : α → α → Bool) (l : List α) (a : α) :
    a ∈ sortBy before l ↔ a ∈ l := by
  induction l with
  | nil => simp [sortBy]
  | cons y ys ih =>
    simp only [sortBy, List.foldr_cons] at ih ⊢
    rw [mem_insertBy, ih]
    simp

/-- One row of the cleaned player-stats DataFrame, with the columns
`calculate_player_probabilities` reads (`Name, Team, Pos, GP, G, A, PTS`). -/
structure PlayerRow where
  name : String
  team : Team
  pos : String
  gp : ℕ
  g : ℕ
  a : ℕ
  pts : ℕ
deriving DecidableEq, Repr

/-- A row of the intermediate `team_players` frame after the `GP`
substitution and the two probability columns are added (the `PTS` column is
still present: it drives the `nlargest` selection). -/
structure PlayerProb where
  name : String
  pos : String
  gp : ℕ
  g : ℕ
  a : ℕ
  goalProb : ℚ
  assistProb : ℚ
  pts : ℕ
deriving DecidableEq, Repr

/-- The columns `[Name, Pos, GP, G, A, GoalProb, AssistProb]` selected on the
returned frame (line 146 drops `PTS` and `Team`). -/
structure PlayerOut where
  name : String
  pos : String
  gp : ℕ
  g : ℕ
  a : ℕ
  goalProb : ℚ
  assistProb : ℚ
deriving DecidableEq, Repr

/-- Round half to even, as numpy/pandas `.round` on exact values. -/
def round_half_even (q : ℚ) : ℤ :=
  if q - ⌊q⌋ < 1/2 then ⌊q⌋
  else if 1/2 < q - ⌊q⌋ then ⌊q⌋ + 1
  else if ⌊q⌋ % 2 = 0 then ⌊q⌋ else ⌊q⌋ + 1

/-- Pandas `.round(1)`. -/
def round1 (q : ℚ) : ℚ := (round_half_even (q * 10) : ℚ) / 10

/-- Pandas `.round(2)`. -/
def round2 (q : ℚ) : ℚ := (round_half_even (q * 100) : ℚ) / 100

/-- Lines 136-143 of `calculate_player_probabilities`: filter the requested
team's players, replace a zero (or missing) `GP` by 1, and add the clipped,
rounded percentage columns. -/
def team_players_with_probs (stats : List PlayerRow) (team : Team) : List PlayerProb :=
  (stats.filter (fun r => r.team == team)).map (fun r =>
    let gp := if r.gp = 0 then 1 else r.gp
    { name := r.name, pos := r.pos, gp := gp, g := r.g, a := r.a,
      goalProb := round1 (min ((r.g : ℚ) / (gp : ℚ)) 1 * 100),
      assistProb := round1 (min ((r.a : ℚ) / (gp : ℚ)) 1 * 100),
      pts := r.pts })

/-- `calculate_player_probabilities(stats_df, team)`: the three rows with the
largest `PTS` (stable descending sort, earlier rows first among ties), with
the output column selection. -/
def calculate_player_probabilities (stats : List PlayerRow) (team : Team) :
    List PlayerOut :=
  ((sortBy (fun x y => y.pts < x.pts) (team_players_with_probs stats team)).take 3).map
    (fun r => ⟨r.name, r.pos, r.gp, r.g, r.a, r.goalProb, r.assistProb⟩)

/-- C6: every row of the per-team probability frame comes from a stats row of
the requested team via the `games_played' = 1 if games_played = 0`
substitution and `prob = round1(min(count/games_played', 1) * 100)`; the
returned top-3 rows are a selection of that frame; and concretely a player
with `games_played = 0` and `goals = 2` gets `goal_prob = 100.0`. -/
theorem calculate_player_probabilities_formula (stats : List PlayerRow) (team : Team) :
    (∀ q ∈ team_players_with_probs stats team, ∃ p : PlayerRow, p ∈ stats ∧ p.team = team ∧
      q.gp = (if p.gp = 0 then 1 else p.gp) ∧
      q.goalProb =
        round1 (min ((p.g : ℚ) / (((if p.gp = 0 then 1 else p.gp) : ℕ) : ℚ)) 1 * 100) ∧
      q.assistProb =
        round1 (min ((p.a : ℚ) / (((if p.gp = 0 then 1 else p.gp) : ℕ) : ℚ)) 1 * 100)) ∧
    (∀ r ∈ calculate_player_probabilities stats team,
      ∃ q ∈ team_players_with_probs stats team,
        r = ⟨q.name, q.pos, q.gp, q.g, q.a, q.goalProb, q.assistProb⟩) ∧
    calculate_player_probabilities [⟨"X", "T", "C", 0, 2, 0, 2⟩] "T" =
      [⟨"X", "C", 1, 2, 0, 100, 0⟩] := by
  refine ⟨?_, ?_, ?_⟩
  · intro q hq
    unfold team_players_with_probs at hq
    obtain ⟨p, hp, hpq⟩ := List.mem_map.mp hq
    obtain ⟨hmem, hteam⟩ := List.mem_filter.mp hp
    refine ⟨p, hmem, by simpa using hteam, ?_, ?_, ?_⟩ <;> rw [← hpq]
  · intro r hr
    unfold calculate_player_probabilities at hr
    obtain ⟨q, hq, hqr⟩ := List.mem_map.mp hr
    have hq' : q ∈ sortBy (fun x y => y.pts < x.pts) (team_players_with_probs stats team) :=
      List.take_subset _ _ hq
    exact ⟨q, (mem_sortBy _ _ _).mp hq', hqr.symm⟩
  · simp [calculate_player_probabilities, team_players_with_probs, sortBy, insertBy]
    constructor <;> norm_num [round1, round_half_even]

/-- Witness for C6: the concrete zero-games-played example. -/
theorem calculate_player_probabilities_formula_witness :
    calculate_player_probabilities [⟨"X", "T", "C", 0, 2, 0, 2⟩] "T" =
      [⟨"X", "C", 1, 2, 0, 100, 0⟩] :=
  (calculate_player_probabilities_formula [⟨"X", "T", "C", 0, 2, 0, 2⟩] "T").2.2

/-- A row of the `top_home_wins` / `top_away_wins` frames: the two score
columns in presentation order, the trial count and the rounded probability
percentage. -/
structure ScoreRow where
  s1 : ℕ
  s2 : ℕ
  count : ℕ
  probability : ℚ
deriving DecidableEq, Repr

/-- The tuple returned by `simulate_scores`. -/
structure SimResult where
  top_home_wins : List ScoreRow
  top_away_wins : List ScoreRow
  home_shutout_prob : ℚ
  away_shutout_prob : ℚ
deriving DecidableEq, Repr

/-- `value_counts(sort=False)` on a pair frame: the distinct pairs in the
groupby key order (ascending lexicographic) with their occurrence counts. -/
def value_counts (l : List (ℕ × ℕ)) : List ((ℕ × ℕ) × ℕ) :=
  (sortBy (fun x y => x.1 < y.1 || (x.1 == y.1 && x.2 < y.2))
      (l.foldl (fun acc p => if p ∈ acc then acc else acc ++ [p]) [])).map
    (fun k => (k, l.count k))

/-- `nlargest(3, 'Count')`: stable descending selection of the three
highest-count rows. -/
def nlargest3 (rows : List ((ℕ × ℕ) × ℕ)) : List ((ℕ × ℕ) × ℕ) :=
  (sortBy (fun x y => y.2 < x.2) rows).take 3

/-- The deterministic aggregation of `simulate_scores` over an already-drawn
list of `(home_score, away_score)` trials (the Poisson draws of lines
102-105 are the only random part; everything from line 107 on is a pure
function of the drawn pairs, with `num_simulations = len(score_simulations)`
the list length).  Shutout percentages are returned unrounded; scoreline
probabilities are rounded to 2 decimals. -/
def simulate_scores (trials : List (ℕ × ℕ)) : SimResult :=
  let num_simulations := trials.length
  let home_shutout_prob :=
    ((trials.filter (fun p => p.2 == 0 && decide (0 < p.1))).length : ℚ)
      / (num_simulations : ℚ) * 100
  let away_shutout_prob :=
    ((trials.filter (fun p => p.1 == 0 && decide (0 < p.2))).length : ℚ)
      / (num_simulations : ℚ) * 100
  let homeWins := trials.filter (fun p => decide (p.2 < p.1))
  let awayWins := trials.filter (fun p => decide (p.1 < p.2))
  let top_home := nlargest3 (value_counts homeWins)
  let top_away := nlargest3 (value_counts (awayWins.map (fun p => (p.2, p.1))))
  { top_home_wins := top_home.map (fun r =>
      ⟨r.1.1, r.1.2, r.2, round2 ((r.2 : ℚ) / (num_simulations : ℚ) * 100)⟩),
    top_away_wins := top_away.map (fun r =>
      ⟨r.1.1, r.1.2, r.2, round2 ((r.2 : ℚ) / (num_simulations : ℚ) * 100)⟩),
    home_shutout_prob := home_shutout_prob,
    away_shutout_prob := away_shutout_prob }

/-- C7 counterexample: `simulate_scores` does NOT round the returned shutout
percentages.  On three trials with one home shutout the returned value is
exactly `100/3`, which differs from the 2-decimal rounding `33.33`. -/
theorem simulate_scores_shutout_unrounded :
    (simulate_scores [(1, 0), (0, 1), (2, 2)]).home_shutout_prob = 100/3 ∧
    round2 ((1 : ℚ) / 3 * 100) = 3333/100 ∧
    (simulate_scores [(1, 0), (0, 1), (2, 2)]).home_shutout_prob
      ≠ round2 ((1 : ℚ) / 3 * 100) := by
  have hlen : (([(1, 0), (0, 1), (2, 2)] : List (ℕ × ℕ)).filter
      (fun p => p.2 == 0 && decide (0 < p.1))).length = 1 := by decide
  have h1 : (simulate_scores [(1, 0), (0, 1), (2, 2)]).home_shutout_prob = 100/3 := by
    simp only [simulate_scores, hlen]
    norm_num
  have h2 : round2 ((1 : ℚ) / 3 * 100) = 3333/100 := by
    norm_num [round2, round_half_even]
  refine ⟨h1, h2, ?_⟩
  rw [h1, h2]
  norm_num

/-- C7 (amended): for every drawn trial list, the returned
`home_shutout_prob` is exactly `|{away = 0 ∧ home > 0}| / trials * 100`
(unrounded; symmetrically for away), and every reported scoreline row carries
`probability = round2(count / trials * 100)`. -/
theorem simulate_scores_aggregation (trials : List (ℕ × ℕ)) (hne : trials ≠ []) :
    (simulate_scores trials).home_shutout_prob =
      ((trials.countP (fun p => p.2 == 0 && decide (0 < p.1))) : ℚ)
        / (trials.length : ℚ) * 100 ∧
    (simulate_scores trials).away_shutout_prob =
      ((trials.countP (fun p => p.1 == 0 && decide (0 < p.2))) : ℚ)
        / (trials.length : ℚ) * 100 ∧
    (∀ r ∈ (simulate_scores trials).top_home_wins,
      r.probability = round2 ((r.count : ℚ) / (trials.length : ℚ) * 100)) ∧
    (∀ r ∈ (simulate_scores trials).top_away_wins,
      r.probability = round2 ((r.count : ℚ) / (trials.length : ℚ) * 100)) := by
  refine ⟨?_, ?_, ?_, ?_⟩
  · rw [List.countP_eq_length_filter]
    rfl
  · rw [List.countP_eq_length_filter]
    rfl
  · intro r hr
    obtain ⟨x, _, hx⟩ := List.mem_map.mp hr
    rw [← hx]
  · intro r hr
    obtain ⟨x, _, hx⟩ := List.mem_map.mp hr
    rw [← hx]

/-- Witness for C7's amended theorem on a concrete three-trial list. -/
theorem simulate_scores_aggregation_witness :
    (simulate_scores [(2, 0), (2, 0), (0, 1)]).home_shutout_prob =
      ((([(2, 0), (2, 0), (0, 1)] : List (ℕ × ℕ)).countP
          (fun p => p.2 == 0 && decide (0 < p.1))) : ℚ)
        / (([(2, 0), (2, 0), (0, 1)] : List (ℕ × ℕ)).length : ℚ) * 100 ∧
    (∀ r ∈ (simulate_scores [(2, 0), (2, 0), (0, 1)]).top_home_wins,
      r.probability = round2 ((r.count : ℚ)
        / (([(2, 0), (2, 0), (0, 1)] : List (ℕ × ℕ)).length : ℚ) * 100)) := by
  obtain ⟨h1, _, h3, _⟩ := simulate_scores_aggregation [(2, 0), (2, 0), (0, 1)] (by decide)
  exact ⟨h1, h3⟩

end MonteCarloSim
